import Mathlib

/-!
Shallow embedding of the Real-Time-Monitoring live-plot core:
`src/live_plot/series.py` (circular buffer), `src/renderer.py`
(auto-scaling, smoothing, background cache, series segmentation),
`src/frame_timer.py` (adaptive frame pacing) and
`src/live_plot/core.py` (orchestrator / series management).

Design choices of the embedding:
* machine floats are modelled as `ℚ`; the IEEE NaN sentinel stored in the
  numpy buffer is modelled as `none : Option ℚ` ("missing"),
* Python host values handed to `Series.push` are modelled at two levels:
  `PyValue` is the benign sub-universe on which `float(value)` succeeds
  or raises one of the two classes `push`'s `except` clause catches
  (`ValueError`/`TypeError`) — the circular-buffer claims, whose inputs
  are numbers, `None`, NaN and infinities, live there; `PyValueX` is the
  unrestricted universe that also carries the uncaught failure modes of
  `float(value)` — `OverflowError` on an integer beyond double range and
  arbitrary classes from an object's `__float__` — and over it `push`'s
  exception behaviour is modelled by `Series.pushX`,
* wall-clock readings and the actual duration of a `cv2.waitKey` call are
  inputs of the timer transition functions (environment oracles),
* the cached background image is modelled by an identity token
  (`bgCache : Option ℕ`): a rebuild allocates a fresh token, so token
  equality is object identity of the numpy background buffer.
-/

namespace RTMon

/-- The two exception classes that the `except (ValueError, TypeError)`
clause of `Series.push` (`src/live_plot/series.py` line 64) catches.
`PyValue` below restricts embedded objects to these benign failure
modes; it is the value universe of the data-path claims, whose inputs
are finite numbers, `None`, NaN and infinities. The full exception
model — including the classes the clause does NOT catch, such as
`OverflowError` — is `PyExc`/`PyValueX` further down. -/
inductive PyErr where
  | valueError
  | typeError
  deriving DecidableEq, Repr

/-- A Python float: a finite value, NaN, or a signed infinity. -/
inductive PyFloat where
  | val (q : ℚ)
  | nan
  | inf (pos : Bool)
  deriving DecidableEq, Repr

/-- A Python host value passed to `Series.push`, drawn from the benign
sub-universe on which `float(value)` either succeeds or raises one of
the two caught classes: `None`, a `float`, an `int` small enough to
convert, or an object whose conversion yields a float or raises
`ValueError`/`TypeError` (e.g. `float("abc")` raises `ValueError`,
`float([])` raises `TypeError`). On this universe `push` completes, so
the circular-buffer claims use it; `PyValueX` below is the unrestricted
universe. -/
inductive PyValue where
  | vNone
  | vFloat (f : PyFloat)
  | vInt (n : ℤ)
  | vOther (conv : Except PyErr PyFloat)
  deriving Repr

/-- Shorthand for pushing a plain finite number. -/
def pyNum (q : ℚ) : PyValue := .vFloat (.val q)

/-- The host conversion `float(value)` (raises on `None` and on
unconvertible objects). -/
def tryFloat : PyValue → Except PyErr PyFloat
  | .vNone => .error .typeError
  | .vFloat f => .ok f
  | .vInt n => .ok (.val (n : ℚ))
  | .vOther c => c

/-- `math.isnan(f) or math.isinf(f)` on a Python float. -/
def PyFloat.isNanOrInf : PyFloat → Bool
  | .val _ => false
  | .nan => true
  | .inf _ => true

/-- Value sanitization performed at the top of `Series.push`
(`src/live_plot/series.py` lines 54-65): `None`, NaN and ±inf map to the
missing sentinel (stored NaN), any other value is converted with
`float(value)`, with `ValueError`/`TypeError` caught and mapped to the
sentinel, and a NaN/inf conversion result also mapped to the sentinel. -/
def sanitize (v : PyValue) : Option ℚ :=
  match v with
  | .vNone => none
  | .vFloat f =>
    if f.isNanOrInf then none
    else
      match tryFloat (.vFloat f) with
      | .ok (.val q) => some q
      | .ok _ => none
      | .error _ => none
  | v =>
    match tryFloat v with
    | .ok (.val q) => some q
    | .ok _ => none
    | .error _ => none

/-- State of one `Series` (`src/live_plot/series.py`): fixed-size numpy
float64 buffer (entries `none` = stored NaN), write head, saturating
count, and the running statistics. -/
structure SeriesState where
  size : ℕ
  buffer : List (Option ℚ)
  head : ℕ
  count : ℕ
  runningSum : ℚ
  runningSqSum : ℚ
  deriving DecidableEq, Repr

namespace Series

/-- `Series.__init__`: buffer full of NaN, head 0, count 0, zero stats. -/
def init (bufferSize : ℕ) : SeriesState :=
  { size := bufferSize
    buffer := List.replicate bufferSize none
    head := 0
    count := 0
    runningSum := 0
    runningSqSum := 0 }

/-- Running-statistics update of `Series.push` (lines 67-76): when the
buffer is full, first subtract the overwritten entry's contribution; then
add the new value's contribution when it is not missing. -/
def statsAfterPush (s : SeriesState) (clean : Option ℚ) : ℚ × ℚ :=
  let base :=
    if s.size ≤ s.count then
      match s.buffer.getD s.head none with
      | some old => (s.runningSum - old, s.runningSqSum - old * old)
      | none => (s.runningSum, s.runningSqSum)
    else (s.runningSum, s.runningSqSum)
  match clean with
  | some c => (base.1 + c, base.2 + c * c)
  | none => base

/-- `Series.push(value)` (lines 52-80): sanitize, update the running
stats, store at the head, advance the head modulo size, saturate the
count. -/
def push (s : SeriesState) (v : PyValue) : SeriesState :=
  { s with
    buffer := s.buffer.set s.head (sanitize v)
    head := (s.head + 1) % s.size
    count := min (s.count + 1) s.size
    runningSum := (statsAfterPush s (sanitize v)).1
    runningSqSum := (statsAfterPush s (sanitize v)).2 }

/-- Push a whole list of values, oldest first. -/
def pushAll (s : SeriesState) (vs : List PyValue) : SeriesState :=
  vs.foldl push s

/-- `Series.get_data()` (lines 82-86): chronological snapshot — a prefix
of length `count` while filling, otherwise `np.roll(buffer, -head)`.
`np.roll(a, -h)[i] = a[(i + h) % n]`, which is `List.rotate` by `head`. -/
def get_data (s : SeriesState) : List (Option ℚ) :=
  if s.count < s.size then s.buffer.take s.count
  else s.buffer.rotate s.head

/-- `Series.latest` (lines 88-94): NaN when empty, else the entry just
behind the head (`(head - 1) % size` in Python arithmetic). -/
def latest (s : SeriesState) : Option ℚ :=
  if s.count = 0 then none
  else s.buffer.getD ((s.head + s.size - 1) % s.size) none

/-- The slice of the physical buffer `get_min_max` scans
(`self._buffer[:self._count]` while filling, else the whole buffer). -/
def storedData (s : SeriesState) : List (Option ℚ) :=
  if s.count < s.size then s.buffer.take s.count else s.buffer

/-- The non-missing entries currently stored. -/
def validEntries (s : SeriesState) : List ℚ :=
  (storedData s).filterMap id

/-- `Series.get_min_max()` (lines 108-114): `(nan, nan)` — modelled as
`none` — when no valid entry exists, else the min and max of the valid
entries. -/
def get_min_max (s : SeriesState) : Option (ℚ × ℚ) :=
  match validEntries s with
  | [] => none
  | x :: xs => some (xs.foldl min x, xs.foldl max x)

/-- Reachable-state invariant of the circular buffer: positive size, the
physical buffer has exactly `size` slots, the count saturates at `size`,
the head equals the count while the buffer is filling, and the head is
always in range. -/
def WF (s : SeriesState) : Prop :=
  0 < s.size ∧ s.buffer.length = s.size ∧ s.count ≤ s.size ∧
    (s.count < s.size → s.head = s.count) ∧ s.head < s.size

lemma WF_init {C : ℕ} (hC : 0 < C) : WF (init C) := by
  refine ⟨hC, by simp [init], by simp [init], by simp [init], by simpa [init] using hC⟩

@[simp] lemma push_size (s : SeriesState) (v : PyValue) : (push s v).size = s.size := rfl

@[simp] lemma push_head (s : SeriesState) (v : PyValue) :
    (push s v).head = (s.head + 1) % s.size := rfl

@[simp] lemma push_count (s : SeriesState) (v : PyValue) :
    (push s v).count = min (s.count + 1) s.size := rfl

@[simp] lemma push_buffer (s : SeriesState) (v : PyValue) :
    (push s v).buffer = s.buffer.set s.head (sanitize v) := rfl

lemma WF_push {s : SeriesState} (h : WF s) (v : PyValue) : WF (push s v) := by
  obtain ⟨h0, hlen, hcnt, hfill, hhead⟩ := h
  refine ⟨h0, by simpa using hlen, by simp, ?_, by simpa using Nat.mod_lt _ h0⟩
  intro hlt
  simp only [push_count, push_head, push_size] at hlt ⊢
  have hc1 : s.count + 1 < s.size := by omega
  have hh : s.head = s.count := hfill (by omega)
  rw [hh, Nat.mod_eq_of_lt hc1]
  omega

lemma get_data_push {s : SeriesState} (h : WF s) (v : PyValue) :
    get_data (push s v) =
      (if s.count < s.size then get_data s else (get_data s).drop 1) ++ [sanitize v] := by
  obtain ⟨h0, hlen, hcnt, hfill, hhead⟩ := h
  by_cases hc : s.count < s.size
  · have hhc : s.head = s.count := hfill hc
    have hbc : s.count < s.buffer.length := by omega
    have hset : s.buffer.set s.head (sanitize v)
        = s.buffer.take s.count ++ sanitize v :: s.buffer.drop (s.count + 1) := by
      rw [hhc]; exact List.set_eq_take_cons_drop _ hbc
    have hLtake : (s.buffer.take s.count).length = s.count := by
      simp [hlen]; omega
    have hkey : (s.buffer.set s.head (sanitize v)).take (s.count + 1)
        = s.buffer.take s.count ++ [sanitize v] := by
      rw [hset, List.take_append_eq_append_take, hLtake]
      have h1 : (s.buffer.take s.count).take (s.count + 1) = s.buffer.take s.count :=
        List.take_of_length_le (by omega)
      have h2 : s.count + 1 - s.count = 1 := by omega
      rw [h1, h2]
      rfl
    rw [if_pos hc]
    by_cases h1 : s.count + 1 < s.size
    · have hgd : get_data (push s v) = (s.buffer.set s.head (sanitize v)).take (s.count + 1) := by
        unfold get_data
        simp only [push_count, push_size, push_buffer]
        rw [if_pos (by omega), Nat.min_def, if_pos (by omega)]
      rw [hgd, hkey]
      unfold get_data
      rw [if_pos hc]
    · have hfull : s.count + 1 = s.size := by omega
      have hgd : get_data (push s v)
          = (s.buffer.set s.head (sanitize v)).rotate ((s.head + 1) % s.size) := by
        unfold get_data
        simp only [push_count, push_size, push_buffer, push_head]
        rw [if_neg (by omega)]
      have hhead1 : (s.head + 1) % s.size = 0 := by
        rw [hhc, hfull, Nat.mod_self]
      rw [hgd, hhead1, List.rotate_zero, hset]
      have hdrop : s.buffer.drop (s.count + 1) = [] :=
        List.drop_eq_nil_of_le (by omega)
      rw [hdrop]
      unfold get_data
      rw [if_pos hc]
  · -- buffer full: count = size
    have hsz : s.count = s.size := by omega
    have hslen : (s.buffer.set s.head (sanitize v)).length = s.size := by
      simp [hlen]
    have hgd : get_data (push s v)
        = (s.buffer.set s.head (sanitize v)).rotate ((s.head + 1) % s.size) := by
      unfold get_data
      simp only [push_count, push_size, push_buffer, push_head]
      rw [if_neg (by omega)]
    have hmod : (s.buffer.set s.head (sanitize v)).rotate ((s.head + 1) % s.size)
        = (s.buffer.set s.head (sanitize v)).rotate (s.head + 1) := by
      conv_lhs => rw [show (s.head + 1) % s.size
        = (s.head + 1) % (s.buffer.set s.head (sanitize v)).length by rw [hslen]]
      exact List.rotate_mod _ _
    have hset : s.buffer.set s.head (sanitize v)
        = s.buffer.take s.head ++ sanitize v :: s.buffer.drop (s.head + 1) := by
      exact List.set_eq_take_cons_drop _ (by omega)
    have hLtake : (s.buffer.take s.head).length = s.head := by
      simp [hlen]; omega
    have hrot1 : (s.buffer.set s.head (sanitize v)).rotate s.head
        = sanitize v :: (s.buffer.drop (s.head + 1) ++ s.buffer.take s.head) := by
      rw [List.rotate_eq_drop_append_take (by omega : s.head ≤ (s.buffer.set s.head (sanitize v)).length)]
      rw [hset, List.drop_append_eq_append_drop, List.take_append_eq_append_take, hLtake]
      have hd1 : (s.buffer.take s.head).drop s.head = [] :=
        List.drop_eq_nil_of_le (by omega)
      have ht1 : (s.buffer.take s.head).take s.head = s.buffer.take s.head :=
        List.take_of_length_le (by omega)
      have hz : s.head - s.head = 0 := by omega
      rw [hd1, ht1, hz]
      simp
    have hrot2 : (s.buffer.set s.head (sanitize v)).rotate (s.head + 1)
        = (s.buffer.drop (s.head + 1) ++ s.buffer.take s.head) ++ [sanitize v] := by
      rw [← List.rotate_rotate, hrot1, List.rotate_cons_succ, List.rotate_zero]
    have hgds : get_data s = s.buffer.rotate s.head := by
      unfold get_data
      rw [if_neg (by omega)]
    have hbh : s.head < s.buffer.length := by omega
    have hdropc : s.buffer.drop s.head
        = s.buffer.get ⟨s.head, hbh⟩ :: s.buffer.drop (s.head + 1) := by
      simp only [List.get_eq_getElem]
      exact List.drop_eq_getElem_cons hbh
    have hrots : s.buffer.rotate s.head
        = s.buffer.get ⟨s.head, hbh⟩ :: (s.buffer.drop (s.head + 1) ++ s.buffer.take s.head) := by
      rw [List.rotate_eq_drop_append_take (by omega : s.head ≤ s.buffer.length), hdropc]
      rfl
    rw [if_neg hc, hgd, hmod, hrot2, hgds, hrots]
    rfl

lemma pushAll_append (s : SeriesState) (vs : List PyValue) (v : PyValue) :
    pushAll s (vs ++ [v]) = push (pushAll s vs) v := by
  simp [pushAll, List.foldl_append]

@[simp] lemma size_pushAll (s : SeriesState) (vs : List PyValue) :
    (pushAll s vs).size = s.size := by
  induction vs using List.reverseRecOn with
  | nil => rfl
  | append_singleton l a ih => rw [pushAll_append, push_size, ih]

lemma WF_pushAll {s : SeriesState} (h : WF s) (vs : List PyValue) : WF (pushAll s vs) := by
  induction vs using List.reverseRecOn with
  | nil => exact h
  | append_singleton l a ih => rw [pushAll_append]; exact WF_push ih a

/-- Main ring-buffer characterisation: starting from an empty buffer of
capacity `C > 0`, after pushing the list `vs` the snapshot is the last
`min |vs| C` sanitized values in chronological order, and the count is
`min |vs| C`. -/
lemma get_data_pushAll (C : ℕ) (hC : 0 < C) (vs : List PyValue) :
    (pushAll (init C) vs).count = min vs.length C ∧
    get_data (pushAll (init C) vs) = (vs.map sanitize).drop (vs.length - C) := by
  induction vs using List.reverseRecOn with
  | nil =>
    constructor
    · simp [pushAll, init]
    · simp [pushAll, init, get_data, hC]
  | append_singleton l a ih =>
    obtain ⟨ihc, ihd⟩ := ih
    have hwf : WF (pushAll (init C) l) := WF_pushAll (WF_init hC) l
    have hsize : (pushAll (init C) l).size = C := by simp [init]
    rw [pushAll_append]
    constructor
    · rw [push_count, ihc, hsize]
      simp [List.length_append]
      omega
    · rw [get_data_push hwf a, ihc, hsize]
      by_cases hlc : l.length < C
      · rw [if_pos (by omega)]
        rw [ihd, Nat.sub_eq_zero_of_le (Nat.le_of_lt hlc), List.drop_zero]
        have : (l ++ [a]).length - C = 0 := by
          simp [List.length_append]; omega
        rw [this, List.drop_zero, List.map_append]
        rfl
      · rw [if_neg (by omega)]
        rw [ihd, List.drop_drop]
        have hlen2 : (l ++ [a]).length - C = (l.length - C) + 1 := by
          simp [List.length_append]; omega
        rw [List.map_append, hlen2]
        have hle : l.length - C + 1 ≤ (l.map sanitize).length := by
          simp; omega
        rw [List.drop_append_of_le_length hle]
        rfl

end Series

/-! ### The full exception model of push

`src/live_plot/series.py` line 64 catches only `(ValueError, TypeError)`
around `float(value)`. But `float` can also raise classes that clause
does not catch: `OverflowError` for an `int` whose rounded value exceeds
the IEEE-754 double range, and an object's `__float__` may raise any
class whatsoever. On such inputs `Series.push` propagates the exception.
The definitions below model that behaviour; the restricted `PyValue`
universe above stays in use for the data-path claims, whose values are
all benign. -/

/-- Exception classes relevant to `float(value)` inside `Series.push`:
the two the `except` clause catches, `OverflowError` (raised by
`float(n)` for an out-of-range integer, NOT a subclass of either caught
class), and a stand-in for every other class an object's `__float__`
might raise. -/
inductive PyExc where
  | valueError
  | typeError
  | overflowError
  | otherExc
  deriving DecidableEq, Repr

/-- Whether `except (ValueError, TypeError)` catches the class. -/
def PyExc.isCaught : PyExc → Bool
  | .valueError => true
  | .typeError => true
  | .overflowError => false
  | .otherExc => false

/-- The smallest magnitude at which `float(n)` on an integer raises
`OverflowError`: integers with `|n| ≥ 2^1024 - 2^970` round (half-even)
to `2^1024`, which is outside the double range, while
`2^1024 - 2^970 - 1` still rounds to the largest finite double. -/
def overflowBound : ℤ := 2 ^ 1024 - 2 ^ 970

/-- A Python host value passed to `Series.push`, unrestricted: `None`, a
`float`, any `int`, or an object embedded with the full outcome of its
`float(...)` conversion — a float, or a raised exception of any class. -/
inductive PyValueX where
  | vNone
  | vFloat (f : PyFloat)
  | vInt (n : ℤ)
  | vObj (conv : Except PyExc PyFloat)
  deriving Repr

/-- The host conversion `float(value)` with its full failure modes:
`TypeError` on `None`, the identity on floats, `OverflowError` on an
out-of-range integer, and whatever an object's `__float__` does. -/
def tryFloatX : PyValueX → Except PyExc PyFloat
  | .vNone => .error .typeError
  | .vFloat f => .ok f
  | .vInt n => if overflowBound ≤ |n| then .error .overflowError else .ok (.val (n : ℚ))
  | .vObj c => c

/-- The sanitization block of `Series.push` (lines 54-65) over the
unrestricted universe: `None` and float NaN/±inf short-circuit to the
sentinel before the `try`; inside it, a `ValueError`/`TypeError` from
`float(value)` is caught and mapped to the sentinel, a NaN/inf
conversion result is mapped to the sentinel, and every other exception
class propagates. -/
def sanitizeX (v : PyValueX) : Except PyExc (Option ℚ) :=
  match v with
  | .vNone => .ok none
  | .vFloat f =>
    if f.isNanOrInf then .ok none
    else
      match tryFloatX (.vFloat f) with
      | .ok (.val q) => .ok (some q)
      | .ok _ => .ok none
      | .error e => if e.isCaught then .ok none else .error e
  | v =>
    match tryFloatX v with
    | .ok (.val q) => .ok (some q)
    | .ok _ => .ok none
    | .error e => if e.isCaught then .ok none else .error e

namespace Series

/-- `Series.push` over the unrestricted universe: an uncaught exception
from `float(value)` aborts the push before any write (buffer, head,
count and stats are left untouched); otherwise the usual write happens. -/
def pushX (s : SeriesState) (v : PyValueX) : Except PyExc SeriesState :=
  match sanitizeX v with
  | .error e => .error e
  | .ok clean =>
    .ok { s with
          buffer := s.buffer.set s.head clean
          head := (s.head + 1) % s.size
          count := min (s.count + 1) s.size
          runningSum := (statsAfterPush s clean).1
          runningSqSum := (statsAfterPush s clean).2 }

end Series

lemma sanitizeX_ok_of_conv_ok (v : PyValueX) (f : PyFloat)
    (h : tryFloatX v = .ok f) : ∃ clean, sanitizeX v = .ok clean := by
  cases v with
  | vNone => simp [tryFloatX] at h
  | vFloat g =>
    cases g with
    | val q => exact ⟨some q, rfl⟩
    | nan => exact ⟨none, rfl⟩
    | inf b => exact ⟨none, rfl⟩
  | vInt n =>
    by_cases hov : overflowBound ≤ |n|
    · rw [show tryFloatX (.vInt n) = .error .overflowError by
        unfold tryFloatX; dsimp only; rw [if_pos hov]] at h
      exact absurd h (by simp)
    · refine ⟨some (n : ℚ), ?_⟩
      unfold sanitizeX tryFloatX
      dsimp only
      rw [if_neg hov]
  | vObj c =>
    rcases c with e | g
    · simp [tryFloatX] at h
    · cases g with
      | val q => exact ⟨some q, rfl⟩
      | nan => exact ⟨none, rfl⟩
      | inf b => exact ⟨none, rfl⟩

lemma sanitizeX_caught (v : PyValueX) (e : PyExc)
    (h : tryFloatX v = .error e) (hc : e.isCaught = true) :
    sanitizeX v = .ok none := by
  cases v with
  | vNone => rfl
  | vFloat g => simp [tryFloatX] at h
  | vInt n =>
    by_cases hov : overflowBound ≤ |n|
    · rw [show tryFloatX (.vInt n) = .error .overflowError by
        unfold tryFloatX; dsimp only; rw [if_pos hov]] at h
      injection h with he
      rw [← he] at hc
      simp [PyExc.isCaught] at hc
    · rw [show tryFloatX (.vInt n) = .ok (.val (n : ℚ)) by
        unfold tryFloatX; dsimp only; rw [if_neg hov]] at h
      exact absurd h (by simp)
  | vObj c =>
    rcases c with e' | g
    · have he : e' = e := by
        have := h
        unfold tryFloatX at this
        injection this
      unfold sanitizeX tryFloatX
      dsimp only
      rw [he, if_pos hc]
    · simp [tryFloatX] at h

lemma sanitizeX_uncaught (v : PyValueX) (e : PyExc)
    (h : tryFloatX v = .error e) (hc : e.isCaught = false) :
    sanitizeX v = .error e := by
  cases v with
  | vNone =>
    have he : e = .typeError := by
      unfold tryFloatX at h
      injection h with he
      exact he.symm
    rw [he] at hc
    simp [PyExc.isCaught] at hc
  | vFloat g => simp [tryFloatX] at h
  | vInt n =>
    by_cases hov : overflowBound ≤ |n|
    · have he : e = .overflowError := by
        rw [show tryFloatX (.vInt n) = .error .overflowError by
          unfold tryFloatX; dsimp only; rw [if_pos hov]] at h
        injection h with he
        exact he.symm
      unfold sanitizeX tryFloatX
      dsimp only
      rw [if_pos hov, he]
      rfl
    · rw [show tryFloatX (.vInt n) = .ok (.val (n : ℚ)) by
        unfold tryFloatX; dsimp only; rw [if_neg hov]] at h
      exact absurd h (by simp)
  | vObj c =>
    rcases c with e' | g
    · have he : e' = e := by
        have := h
        unfold tryFloatX at this
        injection this
      unfold sanitizeX tryFloatX
      dsimp only
      rw [he, if_neg (by rw [hc]; exact Bool.false_ne_true)]
    · simp [tryFloatX] at h

lemma sanitizeX_error_inv (v : PyValueX) (e : PyExc)
    (h : sanitizeX v = .error e) :
    tryFloatX v = .error e ∧ e.isCaught = false := by
  cases v with
  | vNone => simp [sanitizeX] at h
  | vFloat g => cases g <;> simp [sanitizeX, tryFloatX, PyFloat.isNanOrInf] at h
  | vInt n =>
    by_cases hov : overflowBound ≤ |n|
    · have hs : sanitizeX (.vInt n) = .error .overflowError := by
        unfold sanitizeX tryFloatX
        dsimp only
        rw [if_pos hov]
        rfl
      rw [hs] at h
      injection h with he
      rw [← he]
      constructor
      · unfold tryFloatX
        dsimp only
        rw [if_pos hov]
      · rfl
    · have hs : sanitizeX (.vInt n) = .ok (some (n : ℚ)) := by
        unfold sanitizeX tryFloatX
        dsimp only
        rw [if_neg hov]
      rw [hs] at h
      exact absurd h (by simp)
  | vObj c =>
    rcases c with e' | g
    · by_cases hc : e'.isCaught = true
      · have hs : sanitizeX (.vObj (.error e')) = .ok none := by
          unfold sanitizeX tryFloatX
          dsimp only
          rw [if_pos hc]
        rw [hs] at h
        exact absurd h (by simp)
      · have hs : sanitizeX (.vObj (.error e')) = .error e' := by
          unfold sanitizeX tryFloatX
          dsimp only
          rw [if_neg hc]
        rw [hs] at h
        injection h with he
        rw [← he]
        exact ⟨rfl, Bool.not_eq_true _ ▸ hc⟩
    · cases g <;> simp [sanitizeX, tryFloatX] at h

lemma pushX_error_inv (s : SeriesState) (v : PyValueX) (e : PyExc)
    (h : Series.pushX s v = .error e) : sanitizeX v = .error e := by
  unfold Series.pushX at h
  cases hs : sanitizeX v with
  | error e' =>
    rw [hs] at h
    injection h with he
    rw [he]
  | ok clean =>
    rw [hs] at h
    exact absurd h (by simp)

/-! ### Series drawing: segmentation at missing values

Model of the gap loop of `Renderer._draw_series` (`src/renderer.py` lines
219-230): the point sequence is split at missing entries; a run is drawn
as a poly-line only when it has at least 2 points. A segment is
represented by the list of data indices whose points it connects. -/

/-- Whether the snapshot entry at index `j` is valid (non-missing);
indices past the end count as missing. -/
def validAt (data : List (Option ℚ)) (j : ℕ) : Prop := data.getD j none ≠ none

instance validAt.dec (data : List (Option ℚ)) (j : ℕ) : Decidable (validAt data j) := by
  unfold validAt; infer_instance

/-- The segmentation loop of `Renderer._draw_series`: `i` is the index of
the next point and `seg` the indices accumulated for the current run. A
valid point appends its index to the run; a missing point emits the run
when it has at least 2 points and restarts it; the trailing run is
emitted at the end under the same length condition. -/
def segLoop : List (Option ℚ) → ℕ → List ℕ → List (List ℕ)
  | [], _, seg => if 2 ≤ seg.length then [seg] else []
  | d :: rest, i, seg =>
    match d with
    | some _ => segLoop rest (i + 1) (seg ++ [i])
    | none => (if 2 ≤ seg.length then [seg] else []) ++ segLoop rest (i + 1) []

/-- All poly-line segments drawn for a snapshot `data`. -/
def buildSegments (data : List (Option ℚ)) : List (List ℕ) := segLoop data 0 []

lemma segLoop_spec (g : List (Option ℚ)) :
    ∀ (rest : List (Option ℚ)) (i : ℕ) (seg : List ℕ) (a : ℕ),
      rest = g.drop i → a ≤ i → seg = List.range' a (i - a) →
      (∀ j ∈ seg, validAt g j) → (a = 0 ∨ ¬ validAt g (a - 1)) →
      ∀ s ∈ segLoop rest i seg,
        ∃ b k, s = List.range' b k ∧ 2 ≤ k ∧ (∀ j ∈ s, validAt g j) ∧
          (b = 0 ∨ ¬ validAt g (b - 1)) ∧ ¬ validAt g (b + k) := by
  intro rest
  induction rest with
  | nil =>
    intro i seg a hdrop ha hseg hvalid hleft s hs
    unfold segLoop at hs
    by_cases h2 : 2 ≤ seg.length
    · rw [if_pos h2] at hs
      rcases List.mem_singleton.mp hs with rfl
      refine ⟨a, i - a, hseg, ?_, hvalid, hleft, ?_⟩
      · rwa [hseg, List.length_range'] at h2
      · have hglen : g.length ≤ i := by
          by_contra hcon
          have : g.drop i ≠ [] := by
            intro hnil
            have := List.drop_eq_nil_iff.mp hnil
            omega
          exact this hdrop.symm
        have : a + (i - a) = i := by omega
        rw [this]
        unfold validAt
        rw [List.getD_eq_default _ _ (by omega)]
        simp
    · rw [if_neg h2] at hs
      exact absurd hs (List.not_mem_nil s)
  | cons d rest' ih =>
    intro i seg a hdrop ha hseg hvalid hleft s hs
    have hig : i < g.length := by
      by_contra hcon
      have : g.drop i = [] := List.drop_eq_nil_iff.mpr (by omega)
      rw [this] at hdrop
      exact List.cons_ne_nil d rest' (by rw [hdrop])
    have hgdrop : g.drop i = g[i] :: g.drop (i + 1) := List.drop_eq_getElem_cons hig
    have hd : d = g[i] := by
      rw [hgdrop] at hdrop
      exact (List.cons_eq_cons.mp hdrop).1
    have hrest : rest' = g.drop (i + 1) := by
      rw [hgdrop] at hdrop
      exact (List.cons_eq_cons.mp hdrop).2
    have hgetD : g.getD i none = g[i] := by
      rw [List.getD_eq_getElem?_getD, List.getElem?_eq_getElem hig]
      rfl
    unfold segLoop at hs
    cases hdval : d with
    | some q =>
      have hvi : validAt g i := by
        unfold validAt
        rw [hgetD, ← hd, hdval]
        simp
      rw [hdval] at hs
      refine ih (i + 1) (seg ++ [i]) a hrest (by omega) ?_ ?_ hleft s hs
      · rw [hseg]
        have : i + 1 - a = (i - a) + 1 := by omega
        rw [this, List.range'_1_concat]
        have : a + (i - a) = i := by omega
        rw [this]
      · intro j hj
        rcases List.mem_append.mp hj with hj1 | hj2
        · exact hvalid j hj1
        · rcases List.mem_singleton.mp hj2 with rfl
          exact hvi
    | none =>
      have hnvi : ¬ validAt g i := by
        unfold validAt
        rw [hgetD, ← hd, hdval]
        simp
      rw [hdval] at hs
      rcases List.mem_append.mp hs with hemit | hrec
      · by_cases h2 : 2 ≤ seg.length
        · rw [if_pos h2] at hemit
          rcases List.mem_singleton.mp hemit with rfl
          refine ⟨a, i - a, hseg, ?_, hvalid, hleft, ?_⟩
          · rwa [hseg, List.length_range'] at h2
          · have : a + (i - a) = i := by omega
            rw [this]
            exact hnvi
        · rw [if_neg h2] at hemit
          exact absurd hemit (List.not_mem_nil s)
      · refine ih (i + 1) [] (i + 1) hrest (by omega) (by simp) (by simp) ?_ s hrec
        right
        simpa using hnvi

/-- Every drawn segment is a maximal run of at least two consecutive
valid indices: its entries are `b, b+1, …, b+k-1`, all valid, and both
neighbours (when they exist) are missing. -/
lemma buildSegments_spec (data : List (Option ℚ)) :
    ∀ s ∈ buildSegments data,
      ∃ b k, s = List.range' b k ∧ 2 ≤ k ∧ (∀ j ∈ s, validAt data j) ∧
        (b = 0 ∨ ¬ validAt data (b - 1)) ∧ ¬ validAt data (b + k) := by
  intro s hs
  exact segLoop_spec data data 0 [] 0 (by simp) (by omega) (by simp) (by simp)
    (by simp) s hs

/-- No drawn segment spans a missing index: a segment never contains
indices strictly on both sides of a missing entry. -/
lemma buildSegments_no_span (data : List (Option ℚ)) (i : ℕ)
    (hmiss : data.getD i none = none) :
    ∀ s ∈ buildSegments data, ¬ ((∃ x ∈ s, x < i) ∧ (∃ y ∈ s, i < y)) := by
  intro s hs ⟨⟨x, hx, hxi⟩, ⟨y, hy, hyi⟩⟩
  obtain ⟨b, k, hrange, _, hvalid, _, _⟩ := buildSegments_spec data s hs
  rw [hrange] at hx hy
  have hxb := List.mem_range'_1.mp hx
  have hyb := List.mem_range'_1.mp hy
  have hi : i ∈ List.range' b k := List.mem_range'_1.mpr (by omega)
  have := hvalid i (by rwa [hrange])
  exact this hmiss

/-! ### Renderer: auto-scaling, smoothing and the background cache

Model of `src/renderer.py`. The cached background image is represented by
an identity token `bgCache : Option ℕ`; `_rebuild_background` allocates a
fresh numpy array, which the model renders as a fresh token drawn from
`nextVersion`. Everything `_rebuild_background` draws is a function of
state that does not feed back into the claims, so the image content
itself is not modelled, only its identity. -/

/-- `AutoScaleMode` (`src/live_plot/config.py`). -/
inductive AutoScaleMode where
  | fixed
  | auto
  | autoExpand
  deriving DecidableEq, Repr

/-- Renderer state (`Renderer.__init__` plus the configuration fields the
render path reads). -/
structure RendererState where
  mode : AutoScaleMode
  pad : ℚ               -- config.auto_scale_padding
  smooth : Bool         -- config.smooth_auto_scale
  speed : ℚ             -- config.auto_scale_speed
  plotH : ℕ             -- config.plot_h
  cfgYMin : ℚ           -- config.y_min
  cfgYMax : ℚ           -- config.y_max
  theme : ℕ             -- identity of the current Theme object
  targetYMin : ℚ
  targetYMax : ℚ
  displayYMin : ℚ
  displayYMax : ℚ
  bgDirty : Bool
  bgCache : Option ℕ
  nextVersion : ℕ
  deriving DecidableEq, Repr

namespace Renderer

/-- `Renderer.mark_dirty()`. -/
def mark_dirty (r : RendererState) : RendererState := { r with bgDirty := true }

/-- The theme setter (`renderer.py` lines 58-61). -/
def set_theme (r : RendererState) (t : ℕ) : RendererState :=
  { r with theme := t, bgDirty := true }

/-- `Renderer.set_y_limits` (lines 67-74). -/
def set_y_limits (r : RendererState) (yMin yMax : ℚ) : RendererState :=
  { r with
    cfgYMin := yMin, cfgYMax := yMax
    targetYMin := yMin, targetYMax := yMax
    displayYMin := yMin, displayYMax := yMax
    bgDirty := true }

/-- The data-gathering loop at the top of `_compute_auto_scale` (lines
417-425): fold `get_min_max` over all series, skipping series whose
minimum is NaN; `none` plays the role of the untouched `(inf, -inf)`
accumulator, i.e. of the `all_min == inf` early-return condition. -/
def gatherMinMax (series : List SeriesState) : Option (ℚ × ℚ) :=
  series.foldl
    (fun acc s =>
      match Series.get_min_max s with
      | Option.none => acc
      | Option.some (lo, hi) =>
        match acc with
        | Option.none => some (lo, hi)
        | Option.some (a, b) => some (min a lo, max b hi))
    none

/-- The `data_range` local of `_compute_auto_scale` (lines 429-431):
`if data_range < 1e-6: data_range = 1.0`. -/
def dataRangeUsed (allMin allMax : ℚ) : ℚ :=
  if allMax - allMin < 1 / 1000000 then 1 else allMax - allMin

/-- The `new_min` candidate of `_compute_auto_scale` (line 433). -/
def candidateLo (r : RendererState) (allMin allMax : ℚ) : ℚ :=
  allMin - dataRangeUsed allMin allMax * r.pad

/-- The `new_max` candidate of `_compute_auto_scale` (line 434). -/
def candidateHi (r : RendererState) (allMin allMax : ℚ) : ℚ :=
  allMax + dataRangeUsed allMin allMax * r.pad

/-- `Renderer._compute_auto_scale` (lines 416-447): skip when no series
has valid data; substitute `1.0` for a data range below `1e-6`; pad
symmetrically; under AUTO_EXPAND never shrink past the previous target;
when not smoothing, snap the displayed bounds and mark the background
dirty if they changed. -/
def compute_auto_scale (r : RendererState) (dataMM : Option (ℚ × ℚ)) : RendererState :=
  match dataMM with
  | Option.none => r
  | Option.some (allMin, allMax) =>
    let newMin := if r.mode = .autoExpand
      then min (candidateLo r allMin allMax) r.targetYMin
      else candidateLo r allMin allMax
    let newMax := if r.mode = .autoExpand
      then max (candidateHi r allMin allMax) r.targetYMax
      else candidateHi r allMin allMax
    if r.smooth then
      { r with targetYMin := newMin, targetYMax := newMax }
    else if newMin ≠ r.displayYMin ∨ newMax ≠ r.displayYMax then
      { r with targetYMin := newMin, targetYMax := newMax,
               displayYMin := newMin, displayYMax := newMax, bgDirty := true }
    else
      { r with targetYMin := newMin, targetYMax := newMax }

/-- The lerped displayed lower bound of `_lerp_y_axis` (line 454). -/
def lerpMin (r : RendererState) : ℚ :=
  r.displayYMin + (r.targetYMin - r.displayYMin) * r.speed

/-- The lerped displayed upper bound of `_lerp_y_axis` (line 455). -/
def lerpMax (r : RendererState) : ℚ :=
  r.displayYMax + (r.targetYMax - r.displayYMax) * r.speed

/-- The 0.1-pixel visibility threshold of `_lerp_y_axis` (line 459),
computed from the freshly lerped bounds. -/
def lerpThreshold (r : RendererState) : ℚ :=
  (lerpMax r - lerpMin r) / (max r.plotH 1 : ℕ) * (1 / 10)

/-- `Renderer._lerp_y_axis` (lines 449-462): move the displayed bounds
toward the target by the lerp factor, then mark the background dirty only
when the per-frame change exceeds the 0.1-pixel visibility threshold. -/
def lerp_y_axis (r : RendererState) : RendererState :=
  if |lerpMin r - r.displayYMin| > lerpThreshold r
      ∨ |lerpMax r - r.displayYMax| > lerpThreshold r then
    { r with displayYMin := lerpMin r, displayYMax := lerpMax r, bgDirty := true }
  else
    { r with displayYMin := lerpMin r, displayYMax := lerpMax r }

/-- Step 1 of `Renderer.render` (lines 93-95): auto-scale when the mode
is not FIXED. -/
def renderScalePass (r : RendererState) (series : List SeriesState) : RendererState :=
  if r.mode ≠ AutoScaleMode.fixed then compute_auto_scale r (gatherMinMax series) else r

/-- Step 2 of `Renderer.render` (lines 97-99): smooth the Y-axis
transition when enabled. -/
def renderSmoothPass (r : RendererState) : RendererState :=
  if r.smooth then lerp_y_axis r else r

/-- Steps 1-3 of `Renderer.render` (lines 93-107): auto-scale when the
mode is not FIXED, smooth when enabled, then rebuild the background iff
the dirty flag is set or no cached background exists (rebuilding
allocates a fresh background buffer and clears the flag). Later steps
draw on the per-frame canvas and do not touch the axis or cache state. -/
def render (r : RendererState) (series : List SeriesState) : RendererState :=
  let r2 := renderSmoothPass (renderScalePass r series)
  if r2.bgDirty ∨ r2.bgCache = none then
    { r2 with bgCache := some r2.nextVersion, nextVersion := r2.nextVersion + 1,
              bgDirty := false }
  else r2

lemma cas_none (r : RendererState) : compute_auto_scale r none = r := rfl

lemma cas_config (r : RendererState) (d : Option (ℚ × ℚ)) :
    (compute_auto_scale r d).mode = r.mode ∧
    (compute_auto_scale r d).smooth = r.smooth ∧
    (compute_auto_scale r d).speed = r.speed ∧
    (compute_auto_scale r d).plotH = r.plotH ∧
    (compute_auto_scale r d).bgCache = r.bgCache ∧
    (compute_auto_scale r d).nextVersion = r.nextVersion := by
  rcases d with _ | ⟨mn, mx⟩
  · exact ⟨rfl, rfl, rfl, rfl, rfl, rfl⟩
  · simp only [compute_auto_scale]
    split_ifs <;> exact ⟨rfl, rfl, rfl, rfl, rfl, rfl⟩

lemma cas_target (r : RendererState) (mn mx : ℚ) :
    (compute_auto_scale r (some (mn, mx))).targetYMin
      = (if r.mode = .autoExpand then min (candidateLo r mn mx) r.targetYMin
         else candidateLo r mn mx) ∧
    (compute_auto_scale r (some (mn, mx))).targetYMax
      = (if r.mode = .autoExpand then max (candidateHi r mn mx) r.targetYMax
         else candidateHi r mn mx) := by
  simp only [compute_auto_scale]
  split_ifs <;> exact ⟨rfl, rfl⟩

lemma cas_dirty_smooth (r : RendererState) (d : Option (ℚ × ℚ)) (h : r.smooth = true) :
    (compute_auto_scale r d).bgDirty = r.bgDirty := by
  rcases d with _ | ⟨mn, mx⟩
  · rfl
  · simp only [compute_auto_scale, h, if_true]

lemma cas_dirty_mono (r : RendererState) (d : Option (ℚ × ℚ)) (h : r.bgDirty = true) :
    (compute_auto_scale r d).bgDirty = true := by
  rcases d with _ | ⟨mn, mx⟩
  · exact h
  · simp only [compute_auto_scale]
    split_ifs <;> simp [h]

lemma cas_expand_mono (r : RendererState) (d : Option (ℚ × ℚ))
    (h : r.mode = .autoExpand) :
    (compute_auto_scale r d).targetYMin ≤ r.targetYMin ∧
    r.targetYMax ≤ (compute_auto_scale r d).targetYMax := by
  rcases d with _ | ⟨mn, mx⟩
  · exact ⟨le_refl _, le_refl _⟩
  · obtain ⟨hmin, hmax⟩ := cas_target r mn mx
    rw [hmin, hmax, if_pos h, if_pos h]
    exact ⟨min_le_right _ _, le_max_right _ _⟩

lemma lerp_config (r : RendererState) :
    (lerp_y_axis r).mode = r.mode ∧
    (lerp_y_axis r).smooth = r.smooth ∧
    (lerp_y_axis r).targetYMin = r.targetYMin ∧
    (lerp_y_axis r).targetYMax = r.targetYMax ∧
    (lerp_y_axis r).bgCache = r.bgCache ∧
    (lerp_y_axis r).nextVersion = r.nextVersion ∧
    (lerp_y_axis r).displayYMin = lerpMin r ∧
    (lerp_y_axis r).displayYMax = lerpMax r := by
  unfold lerp_y_axis
  split_ifs <;> exact ⟨rfl, rfl, rfl, rfl, rfl, rfl, rfl, rfl⟩

lemma lerp_dirty_small (r : RendererState)
    (h1 : |lerpMin r - r.displayYMin| ≤ lerpThreshold r)
    (h2 : |lerpMax r - r.displayYMax| ≤ lerpThreshold r) :
    (lerp_y_axis r).bgDirty = r.bgDirty := by
  unfold lerp_y_axis
  rw [if_neg]
  push_neg
  exact ⟨h1, h2⟩

lemma lerp_dirty_mono (r : RendererState) (h : r.bgDirty = true) :
    (lerp_y_axis r).bgDirty = true := by
  unfold lerp_y_axis
  split_ifs <;> simp [h]

lemma scalePass_config (r : RendererState) (series : List SeriesState) :
    (renderScalePass r series).mode = r.mode ∧
    (renderScalePass r series).smooth = r.smooth ∧
    (renderScalePass r series).bgCache = r.bgCache ∧
    (renderScalePass r series).nextVersion = r.nextVersion := by
  unfold renderScalePass
  split_ifs
  · obtain ⟨h1, h2, _, _, h5, h6⟩ := cas_config r (gatherMinMax series)
    exact ⟨h1, h2, h5, h6⟩
  · exact ⟨rfl, rfl, rfl, rfl⟩

lemma scalePass_dirty_mono (r : RendererState) (series : List SeriesState)
    (h : r.bgDirty = true) : (renderScalePass r series).bgDirty = true := by
  unfold renderScalePass
  split_ifs
  · exact cas_dirty_mono r _ h
  · exact h

lemma smoothPass_config (r : RendererState) :
    (renderSmoothPass r).mode = r.mode ∧
    (renderSmoothPass r).smooth = r.smooth ∧
    (renderSmoothPass r).bgCache = r.bgCache ∧
    (renderSmoothPass r).nextVersion = r.nextVersion ∧
    (renderSmoothPass r).targetYMin = r.targetYMin ∧
    (renderSmoothPass r).targetYMax = r.targetYMax := by
  unfold renderSmoothPass
  split_ifs
  · obtain ⟨h1, h2, h3, h4, h5, h6, _, _⟩ := lerp_config r
    exact ⟨h1, h2, h5, h6, h3, h4⟩
  · exact ⟨rfl, rfl, rfl, rfl, rfl, rfl⟩

lemma smoothPass_dirty_mono (r : RendererState) (h : r.bgDirty = true) :
    (renderSmoothPass r).bgDirty = true := by
  unfold renderSmoothPass
  split_ifs
  · exact lerp_dirty_mono r h
  · exact h

lemma render_dirty_false (r : RendererState) (series : List SeriesState) :
    (render r series).bgDirty = false := by
  unfold render
  dsimp only
  split_ifs with h
  · rfl
  · push_neg at h
    exact Bool.not_eq_true _ ▸ h.1

lemma render_cache_isSome (r : RendererState) (series : List SeriesState) :
    (render r series).bgCache.isSome := by
  unfold render
  dsimp only
  split_ifs with h
  · rfl
  · push_neg at h
    exact Option.ne_none_iff_isSome.mp h.2

lemma render_target (r : RendererState) (series : List SeriesState) :
    (render r series).targetYMin = (renderScalePass r series).targetYMin ∧
    (render r series).targetYMax = (renderScalePass r series).targetYMax := by
  unfold render
  dsimp only
  split_ifs with h
  · exact ⟨(smoothPass_config _).2.2.2.2.1, (smoothPass_config _).2.2.2.2.2⟩
  · exact ⟨(smoothPass_config _).2.2.2.2.1, (smoothPass_config _).2.2.2.2.2⟩

lemma render_mode (r : RendererState) (series : List SeriesState) :
    (render r series).mode = r.mode := by
  unfold render
  dsimp only
  split_ifs with h
  · exact ((smoothPass_config _).1).trans (scalePass_config r series).1
  · exact ((smoothPass_config _).1).trans (scalePass_config r series).1

lemma render_smooth (r : RendererState) (series : List SeriesState) :
    (render r series).smooth = r.smooth := by
  unfold render
  dsimp only
  split_ifs with h
  · exact ((smoothPass_config _).2.1).trans (scalePass_config r series).2.1
  · exact ((smoothPass_config _).2.1).trans (scalePass_config r series).2.1

lemma gatherMinMax_none : ∀ (series : List SeriesState),
    (∀ s ∈ series, Series.get_min_max s = none) → gatherMinMax series = none := by
  intro series
  unfold gatherMinMax
  induction series with
  | nil => intro _; rfl
  | cons s ss ih =>
    intro h
    rw [List.foldl_cons]
    have hs := h s (List.mem_cons_self s ss)
    rw [hs]
    exact ih (fun t ht => h t (List.mem_cons_of_mem s ht))

lemma render_expand_target (r : RendererState) (series : List SeriesState)
    (h : r.mode = .autoExpand) :
    (render r series).targetYMin ≤ r.targetYMin ∧
    r.targetYMax ≤ (render r series).targetYMax := by
  obtain ⟨ht1, ht2⟩ := render_target r series
  rw [ht1, ht2]
  unfold renderScalePass
  rw [if_pos (by simp [h])]
  exact cas_expand_mono r _ h

lemma foldl_render_expand_mono (frames : List (List SeriesState)) (r : RendererState)
    (h : r.mode = .autoExpand) :
    (frames.foldl render r).targetYMin ≤ r.targetYMin ∧
    r.targetYMax ≤ (frames.foldl render r).targetYMax := by
  induction frames generalizing r with
  | nil => exact ⟨le_refl _, le_refl _⟩
  | cons f fs ih =>
    rw [List.foldl_cons]
    obtain ⟨m1, m2⟩ := ih (render r f) (by rw [render_mode]; exact h)
    obtain ⟨s1, s2⟩ := render_expand_target r f h
    exact ⟨le_trans m1 s1, le_trans s2 m2⟩

lemma render_no_data_target (r : RendererState) (series : List SeriesState)
    (h : ∀ s ∈ series, Series.get_min_max s = none) :
    (render r series).targetYMin = r.targetYMin ∧
    (render r series).targetYMax = r.targetYMax := by
  obtain ⟨ht1, ht2⟩ := render_target r series
  rw [ht1, ht2]
  unfold renderScalePass
  split_ifs
  · rw [gatherMinMax_none series h]
    exact ⟨rfl, rfl⟩
  · exact ⟨rfl, rfl⟩

lemma render_rebuild (r : RendererState) (series : List SeriesState)
    (h : r.bgDirty = true) :
    (render r series).bgCache = some r.nextVersion ∧
    (render r series).nextVersion = r.nextVersion + 1 := by
  have hd : (renderSmoothPass (renderScalePass r series)).bgDirty = true :=
    smoothPass_dirty_mono _ (scalePass_dirty_mono r series h)
  have hv : (renderSmoothPass (renderScalePass r series)).nextVersion = r.nextVersion :=
    (smoothPass_config _).2.2.2.1.trans (scalePass_config r series).2.2.2
  unfold render
  dsimp only
  rw [if_pos (Or.inl (by rw [hd]))]
  exact ⟨by rw [hv], by rw [hv]⟩

/-- When smoothing is on, the previous render left the cache clean, and
the displayed-bound movement of this frame's lerp stays within the
visibility threshold, `render` reuses the cached background unchanged. -/
lemma render_reuse (r1 : RendererState) (series : List SeriesState)
    (hsm : r1.smooth = true) (hdirty : r1.bgDirty = false)
    (hcache : r1.bgCache.isSome)
    (h1 : |lerpMin (renderScalePass r1 series) - (renderScalePass r1 series).displayYMin|
        ≤ lerpThreshold (renderScalePass r1 series))
    (h2 : |lerpMax (renderScalePass r1 series) - (renderScalePass r1 series).displayYMax|
        ≤ lerpThreshold (renderScalePass r1 series)) :
    (render r1 series).bgCache = r1.bgCache := by
  have hsm2 : (renderScalePass r1 series).smooth = true :=
    ((scalePass_config r1 series).2.1).trans hsm
  have hdirty2 : (renderScalePass r1 series).bgDirty = false := by
    unfold renderScalePass
    split_ifs
    · exact (cas_dirty_smooth r1 _ hsm).trans hdirty
    · exact hdirty
  have hcache2 : (renderScalePass r1 series).bgCache = r1.bgCache :=
    (scalePass_config r1 series).2.2.1
  have hsp : renderSmoothPass (renderScalePass r1 series)
      = lerp_y_axis (renderScalePass r1 series) := by
    unfold renderSmoothPass
    rw [if_pos hsm2]
  have hd3 : (lerp_y_axis (renderScalePass r1 series)).bgDirty = false :=
    (lerp_dirty_small _ h1 h2).trans hdirty2
  have hc3 : (lerp_y_axis (renderScalePass r1 series)).bgCache = r1.bgCache :=
    ((lerp_config _).2.2.2.2.1).trans hcache2
  unfold render
  dsimp only
  rw [hsp]
  rw [if_neg]
  · exact hc3
  · rintro (hb | hn)
    · rw [hd3] at hb
      exact Bool.false_ne_true hb
    · rw [hc3] at hn
      rw [hn] at hcache
      simp at hcache

end Renderer

/-! ### FrameTimer (src/frame_timer.py)

Wall-clock readings (`time.perf_counter()`) and the duration actually
spent inside `cv2.waitKey` are inputs of the transition functions: the
environment supplies them. The model fixes the strategy to ADAPTIVE (the
strategy the claims are about), so the `strategy == UNLIMITED` disjunct
of the unthrottled branch is always false and only `target_fps <= 0`
remains of it. -/

/-- Timer state (`FrameTimer.__init__`). -/
structure TimerState where
  targetFps : ℤ
  frameDuration : ℚ
  lastTick : ℚ
  frameTimes : List ℚ       -- deque(maxlen=120)
  fps : ℚ
  overshootAvg : ℚ
  overshootAlpha : ℚ
  deriving DecidableEq, Repr

namespace FrameTimer

/-- Python `int(x)` on a real: truncation toward zero. -/
def truncToInt (q : ℚ) : ℤ := if 0 ≤ q then ⌊q⌋ else ⌈q⌉

/-- The deque append with `maxlen=120` backing `_frame_times`. -/
def dequeAppend (ft : List ℚ) (now : ℚ) : List ℚ :=
  let ft0 := ft ++ [now]
  if 120 < ft0.length then ft0.drop (ft0.length - 120) else ft0

/-- The FPS recomputation of `_record_frame` (lines 193-197): requires at
least two window samples and positive elapsed time, else the previous
value sticks. -/
def fpsAfter (ft : List ℚ) (now oldFps : ℚ) : ℚ :=
  if 2 ≤ ft.length then
    match ft.head? with
    | Option.some oldest =>
      if 0 < now - oldest then ((ft.length : ℚ) - 1) / (now - oldest) else oldFps
    | Option.none => oldFps
  else oldFps

/-- `FrameTimer._record_frame` (lines 188-197): append the timestamp to
the bounded sliding window, reset the tick clock, and recompute the
windowed FPS. -/
def record_frame (s : TimerState) (now : ℚ) : TimerState :=
  { s with
    frameTimes := dequeAppend s.frameTimes now
    lastTick := now
    fps := fpsAfter (dequeAppend s.frameTimes now) now s.fps }

/-- `FrameTimer._tick_adaptive` (lines 121-154). `nowOverrun` is the
clock reading taken in the overrun branch; `tBefore` is the reading just
before `cv2.waitKey` and `actualWait` how long that call really blocked
(so `t_after = tBefore + actualWait`). Returns the `waitKey` argument in
milliseconds together with the updated state. -/
def tick_adaptive (s : TimerState) (remaining nowOverrun tBefore actualWait : ℚ) :
    ℤ × TimerState :=
  if remaining ≤ 0 then
    (1, { s with lastTick := nowOverrun })
  else
    let adjustedMs : ℤ := max 1 (truncToInt ((remaining - s.overshootAvg) * 1000))
    let tAfter := tBefore + actualWait
    let requestedWait : ℚ := (adjustedMs : ℚ) / 1000
    let overshoot := actualWait - requestedWait
    (adjustedMs,
      { s with
        overshootAvg := s.overshootAlpha * overshoot
          + (1 - s.overshootAlpha) * s.overshootAvg
        lastTick := tAfter })

/-- `FrameTimer.tick` (lines 94-119) under the ADAPTIVE strategy: the
unthrottled branch when `target_fps <= 0`, otherwise compute the
remaining frame budget, run the adaptive wait, then `_record_frame` with
a fresh clock reading `nowRecord`. -/
def tick (s : TimerState) (now nowOverrun tBefore actualWait nowRecord : ℚ) :
    ℤ × TimerState :=
  if s.targetFps ≤ 0 then
    (1, record_frame s now)
  else
    let elapsed := now - s.lastTick
    let remaining := s.frameDuration - elapsed
    let ks := tick_adaptive s remaining nowOverrun tBefore actualWait
    (ks.1, record_frame ks.2 nowRecord)

lemma record_frame_overshootAvg (s : TimerState) (now : ℚ) :
    (record_frame s now).overshootAvg = s.overshootAvg := rfl

lemma record_frame_lastTick (s : TimerState) (now : ℚ) :
    (record_frame s now).lastTick = now := rfl

lemma tick_adaptive_overrun (s : TimerState) (remaining nowOverrun tBefore actualWait : ℚ)
    (h : remaining ≤ 0) :
    tick_adaptive s remaining nowOverrun tBefore actualWait
      = (1, { s with lastTick := nowOverrun }) := by
  unfold tick_adaptive
  rw [if_pos h]

lemma tick_adaptive_wait (s : TimerState) (remaining nowOverrun tBefore actualWait : ℚ)
    (h : ¬ remaining ≤ 0) :
    tick_adaptive s remaining nowOverrun tBefore actualWait
      = (max 1 (truncToInt ((remaining - s.overshootAvg) * 1000)),
         { s with
           overshootAvg := s.overshootAlpha
               * (actualWait
                  - ((max 1 (truncToInt ((remaining - s.overshootAvg) * 1000)) : ℤ) : ℚ) / 1000)
             + (1 - s.overshootAlpha) * s.overshootAvg
           lastTick := tBefore + actualWait }) := by
  unfold tick_adaptive
  rw [if_neg h]

end FrameTimer

/-! ### LivePlot orchestrator (src/live_plot/core.py)

The series dict is an insertion-ordered association list. Operations
that raise propagate a `PlotError` via `Except`; an error carries the
(possibly partially mutated) state alongside, matching Python where the
exception leaves earlier mutations of the same call in place. -/

/-- Errors raised by the orchestrator's push paths. -/
inductive PlotError where
  | unknownSeries (name : String)
  deriving DecidableEq, Repr

/-- Orchestrator state (the parts of `LivePlot.__init__` the claims
read). -/
structure PlotState where
  series : List (String × SeriesState)
  seriesOrder : List String
  paused : Bool
  bufferSize : ℕ
  renderer : RendererState
  deriving DecidableEq, Repr

namespace LivePlot

/-- Dict assignment `self._series[name] = Series(...)`: replace in place
when the key exists, else append. -/
def upsertSeries (l : List (String × SeriesState)) (k : String) (v : SeriesState) :
    List (String × SeriesState) :=
  if (l.lookup k).isSome then l.map (fun kv => if kv.1 = k then (k, v) else kv)
  else l ++ [(k, v)]

/-- `LivePlot.add_series` (lines 102-113): store a fresh `Series` under
the name, append it to the draw order, mark the renderer dirty. -/
def add_series (p : PlotState) (name : String) : PlotState :=
  { p with
    series := upsertSeries p.series name (Series.init p.bufferSize)
    seriesOrder := p.seriesOrder ++ [name]
    renderer := Renderer.mark_dirty p.renderer }

/-- `LivePlot.remove_series` (lines 115-122): delete the entry, drop it
from the draw order and mark the renderer dirty — only when present. -/
def remove_series (p : PlotState) (name : String) : PlotState :=
  if (p.series.lookup name).isSome then
    { p with
      series := p.series.filter (fun kv => kv.1 ≠ name)
      seriesOrder := p.seriesOrder.erase name
      renderer := Renderer.mark_dirty p.renderer }
  else p

/-- `self._series[name].push(value)`. -/
def pushInto (p : PlotState) (name : String) (v : PyValue) : PlotState :=
  { p with
    series := p.series.map (fun kv => if kv.1 = name then (kv.1, Series.push kv.2 v) else kv) }

/-- `LivePlot._do_render` (lines 352-365): delegate to `Renderer.render`
over the current series collection. -/
def do_render (p : PlotState) : PlotState :=
  { p with renderer := Renderer.render p.renderer (p.series.map Prod.snd) }

/-- `LivePlot._ensure_default_series` (lines 325-337): auto-create the
reserved `"_default"` series on first use (and mark the renderer dirty);
no-op when it already exists. -/
def ensure_default_series (p : PlotState) : PlotState :=
  if (p.series.lookup "_default").isSome then p
  else
    { p with
      series := p.series ++ [("_default", Series.init p.bufferSize)]
      seriesOrder := p.seriesOrder ++ ["_default"]
      renderer := Renderer.mark_dirty p.renderer }

/-- The single-argument convenience path of `LivePlot.update` (lines
135-140, 145-151, `value is None`): ensure the default series, push into
it unless paused, render. Never raises. -/
def updateSingle (p : PlotState) (v : PyValue) : PlotState :=
  let p1 := ensure_default_series p
  let p2 := if p1.paused then p1 else pushInto p1 "_default" v
  do_render p2

/-- The named path of `LivePlot.update` (lines 141-151): raise
`KeyError` for an unknown series name (leaving the state untouched);
otherwise push unless paused and render. -/
def updateNamed (p : PlotState) (name : String) (v : PyValue) :
    Except (PlotError × PlotState) PlotState :=
  if (p.series.lookup name).isNone then .error (.unknownSeries name, p)
  else
    let p1 := if p.paused then p else pushInto p name v
    .ok (do_render p1)

/-- The push loop of `LivePlot.update_all` (lines 157-160): check and
push entry by entry; an unknown name raises after the earlier entries
were already pushed. -/
def pushAllNamed (p : PlotState) :
    List (String × PyValue) → Except (PlotError × PlotState) PlotState
  | [] => .ok p
  | (n, v) :: rest =>
    if (p.series.lookup n).isNone then .error (.unknownSeries n, p)
    else pushAllNamed (pushInto p n v) rest

/-- `LivePlot.update_all` (lines 153-162): when paused the whole push
loop — including its unknown-name check — is skipped; always render on
the non-raising paths. -/
def update_all (p : PlotState) (data : List (String × PyValue)) :
    Except (PlotError × PlotState) PlotState :=
  if p.paused then .ok (do_render p)
  else
    match pushAllNamed p data with
    | .error e => .error e
    | .ok p1 => .ok (do_render p1)

/-- `LivePlot.set_y_limits` (lines 271-274). -/
def set_y_limits (p : PlotState) (yMin yMax : ℚ) : PlotState :=
  { p with renderer := Renderer.set_y_limits p.renderer yMin yMax }

/-- `LivePlot.set_theme` (lines 276-278). -/
def set_theme (p : PlotState) (t : ℕ) : PlotState :=
  { p with renderer := Renderer.set_theme p.renderer t }

end LivePlot

/-! ### Generic fold-min/fold-max facts (for `get_min_max`) -/

lemma foldl_min_mem (xs : List ℚ) (x : ℚ) : xs.foldl min x ∈ x :: xs := by
  induction xs generalizing x with
  | nil => simp
  | cons y ys ih =>
    rw [List.foldl_cons]
    rcases List.mem_cons.mp (ih (min x y)) with h | h
    · rcases min_choice x y with hm | hm
      · rw [h, hm]; exact List.mem_cons_self _ _
      · rw [h, hm]; exact List.mem_cons_of_mem _ (List.mem_cons_self _ _)
    · exact List.mem_cons_of_mem _ (List.mem_cons_of_mem _ h)

lemma foldl_max_mem (xs : List ℚ) (x : ℚ) : xs.foldl max x ∈ x :: xs := by
  induction xs generalizing x with
  | nil => simp
  | cons y ys ih =>
    rw [List.foldl_cons]
    rcases List.mem_cons.mp (ih (max x y)) with h | h
    · rcases max_choice x y with hm | hm
      · rw [h, hm]; exact List.mem_cons_self _ _
      · rw [h, hm]; exact List.mem_cons_of_mem _ (List.mem_cons_self _ _)
    · exact List.mem_cons_of_mem _ (List.mem_cons_of_mem _ h)

lemma foldl_min_le (xs : List ℚ) (x : ℚ) : ∀ y ∈ x :: xs, xs.foldl min x ≤ y := by
  induction xs generalizing x with
  | nil =>
    intro y hy
    rw [List.mem_singleton] at hy
    subst hy
    simp
  | cons z zs ih =>
    intro y hy
    rw [List.foldl_cons]
    rcases List.mem_cons.mp hy with rfl | hy'
    · exact le_trans (ih (min y z) (min y z) (List.mem_cons_self _ _)) (min_le_left y z)
    · rcases List.mem_cons.mp hy' with rfl | hy''
      · exact le_trans (ih (min x y) (min x y) (List.mem_cons_self _ _)) (min_le_right x y)
      · exact ih (min x z) y (List.mem_cons_of_mem _ hy'')

lemma foldl_max_ge (xs : List ℚ) (x : ℚ) : ∀ y ∈ x :: xs, y ≤ xs.foldl max x := by
  induction xs generalizing x with
  | nil =>
    intro y hy
    rw [List.mem_singleton] at hy
    subst hy
    simp
  | cons z zs ih =>
    intro y hy
    rw [List.foldl_cons]
    rcases List.mem_cons.mp hy with rfl | hy'
    · exact le_trans (le_max_left y z) (ih (max y z) (max y z) (List.mem_cons_self _ _))
    · rcases List.mem_cons.mp hy' with rfl | hy''
      · exact le_trans (le_max_right x y) (ih (max x y) (max x y) (List.mem_cons_self _ _))
      · exact ih (max x z) y (List.mem_cons_of_mem _ hy'')

/-! ### Association-list facts for the series dict -/

lemma lookup_cons_isSome (k : String) (v : SeriesState) (l : List (String × SeriesState))
    (name : String) :
    (((k, v) :: l).lookup name).isSome = (name == k || (l.lookup name).isSome) := by
  cases hke : (name == k) <;> simp [List.lookup, hke]

lemma lookup_cons_isSome_fst (hd : String × SeriesState) (l : List (String × SeriesState))
    (name : String) :
    ((hd :: l).lookup name).isSome = (name == hd.1 || (l.lookup name).isSome) := by
  obtain ⟨k, v⟩ := hd
  exact lookup_cons_isSome k v l name

lemma lookup_map_keepKeys (g : String × SeriesState → String × SeriesState)
    (hg : ∀ kv, (g kv).1 = kv.1) (l : List (String × SeriesState)) (name : String) :
    ((l.map g).lookup name).isSome = (l.lookup name).isSome := by
  induction l with
  | nil => rfl
  | cons kv rest ih =>
    rw [List.map_cons, lookup_cons_isSome_fst, lookup_cons_isSome_fst, hg kv, ih]

lemma lookup_append_self (l : List (String × SeriesState)) (k : String) (v : SeriesState) :
    ((l ++ [(k, v)]).lookup k).isSome := by
  induction l with
  | nil => simp [List.lookup]
  | cons kv rest ih =>
    obtain ⟨k', v'⟩ := kv
    rw [List.cons_append, lookup_cons_isSome]
    cases hke : (k == k')
    · simp [ih]
    · simp

/-! ## The claims -/

/-- C1: for every buffer capacity C > 0 and every sequence of N pushes
(N ≥ C) into a Series of capacity C, get_data() returns a sequence of
length exactly C equal to the last C pushed values, each sanitized
(None/NaN/infinite mapped to the missing sentinel), in chronological
oldest-to-newest order. -/
theorem claim_C1_snapshot_last_C (C : ℕ) (hC : 0 < C) (vs : List PyValue)
    (hN : C ≤ vs.length) :
    (Series.get_data (Series.pushAll (Series.init C) vs)).length = C ∧
    Series.get_data (Series.pushAll (Series.init C) vs)
      = (vs.map sanitize).drop (vs.length - C) ∧
    sanitize PyValue.vNone = none ∧
    sanitize (PyValue.vFloat .nan) = none ∧
    sanitize (PyValue.vFloat (.inf true)) = none ∧
    sanitize (PyValue.vFloat (.inf false)) = none := by
  obtain ⟨hcount, hdata⟩ := Series.get_data_pushAll C hC vs
  refine ⟨?_, hdata, rfl, rfl, rfl, rfl⟩
  rw [hdata, List.length_drop, List.length_map]
  omega

/-- Witness for C1: scenario 1 of the spec — capacity-5 buffer, push
1,2,3,4,5,6, snapshot is [2,3,4,5,6]. -/
theorem claim_C1_witness :
    (0 : ℕ) < 5 ∧
    (5 : ℕ) ≤ ([pyNum 1, pyNum 2, pyNum 3, pyNum 4, pyNum 5, pyNum 6] : List PyValue).length ∧
    Series.get_data (Series.pushAll (Series.init 5)
        [pyNum 1, pyNum 2, pyNum 3, pyNum 4, pyNum 5, pyNum 6])
      = [some 2, some 3, some 4, some 5, some 6] := by
  refine ⟨by decide, by decide, ?_⟩
  have h := claim_C1_snapshot_last_C 5 (by decide)
    [pyNum 1, pyNum 2, pyNum 3, pyNum 4, pyNum 5, pyNum 6] (by decide)
  rw [h.2.1]
  decide

/-- C2: a pushed None/NaN/±inf produces the missing sentinel at its
snapshot index, and the series-drawing pass partitions the points into
maximal runs of valid entries, so no drawn poly-line segment connects a
point before that index to a point after it. -/
theorem claim_C2_missing_gap (C : ℕ) (hC : 0 < C) (vs : List PyValue) (i : ℕ)
    (hlen : vs.length ≤ C) (hi : i < vs.length)
    (hbad : vs.get ⟨i, hi⟩ = PyValue.vNone ∨ vs.get ⟨i, hi⟩ = .vFloat .nan
      ∨ vs.get ⟨i, hi⟩ = .vFloat (.inf true) ∨ vs.get ⟨i, hi⟩ = .vFloat (.inf false)) :
    (Series.get_data (Series.pushAll (Series.init C) vs))[i]? = some none ∧
    (∀ s ∈ buildSegments (Series.get_data (Series.pushAll (Series.init C) vs)),
      ∃ b k, s = List.range' b k ∧ 2 ≤ k ∧
        (∀ j ∈ s, validAt (Series.get_data (Series.pushAll (Series.init C) vs)) j) ∧
        (b = 0 ∨ ¬ validAt (Series.get_data (Series.pushAll (Series.init C) vs)) (b - 1)) ∧
        ¬ validAt (Series.get_data (Series.pushAll (Series.init C) vs)) (b + k)) ∧
    (∀ s ∈ buildSegments (Series.get_data (Series.pushAll (Series.init C) vs)),
      ¬ ((∃ x ∈ s, x < i) ∧ (∃ y ∈ s, i < y))) := by
  obtain ⟨hcount, hdata⟩ := Series.get_data_pushAll C hC vs
  have hdrop : vs.length - C = 0 := by omega
  rw [hdrop, List.drop_zero] at hdata
  have hbadn : sanitize (vs.get ⟨i, hi⟩) = none := by
    rcases hbad with h | h | h | h <;> rw [h] <;> rfl
  have hentry : (Series.get_data (Series.pushAll (Series.init C) vs))[i]? = some none := by
    have hstep : (Series.get_data (Series.pushAll (Series.init C) vs))[i]?
        = some (sanitize (vs.get ⟨i, hi⟩)) := by
      rw [hdata, List.getElem?_map, List.getElem?_eq_getElem hi]
      rfl
    rw [hstep, hbadn]
  refine ⟨hentry, buildSegments_spec _, ?_⟩
  have hmiss : (Series.get_data (Series.pushAll (Series.init C) vs)).getD i none = none := by
    rw [List.getD_eq_getElem?_getD, hentry]
    rfl
  exact buildSegments_no_span _ i hmiss

/-- Witness for C2: capacity 3, pushes [10, None, 20]; the middle
snapshot entry is the sentinel and the only candidate runs are the
singletons around it, so nothing is drawn across index 1. -/
theorem claim_C2_witness :
    ((0 : ℕ) < 3 ∧ ([pyNum 10, PyValue.vNone, pyNum 20] : List PyValue).length ≤ 3 ∧
      (1 : ℕ) < ([pyNum 10, PyValue.vNone, pyNum 20] : List PyValue).length) ∧
    (Series.get_data (Series.pushAll (Series.init 3)
        [pyNum 10, PyValue.vNone, pyNum 20]))[1]? = some none := by
  refine ⟨⟨by decide, by decide, by decide⟩, ?_⟩
  have h := claim_C2_missing_gap 3 (by decide) [pyNum 10, PyValue.vNone, pyNum 20] 1
    (by decide) (by decide) (Or.inl rfl)
  exact h.1

/-- C6 counterexample: after pushing 10, None, 20 into a capacity-3
Series, latest() is 20 — the most recently pushed value — not the
missing sentinel, refuting the claim's latest() clause. -/
theorem claim_C6_counterexample :
    Series.latest (Series.pushAll (Series.init 3) [pyNum 10, PyValue.vNone, pyNum 20])
      = some 20 ∧
    (some (20 : ℚ) : Option ℚ) ≠ none := by
  exact ⟨by decide, by decide⟩

/-- C6 (amended): after pushing the three values 10, None, 20 in that
order into an empty Series of capacity 3, get_min_max() returns (10, 20)
and latest() returns 20 (the most recently pushed value; it would be the
missing sentinel only if the last pushed value were missing). -/
theorem claim_C6_scenario2 :
    Series.get_min_max (Series.pushAll (Series.init 3) [pyNum 10, PyValue.vNone, pyNum 20])
      = some (10, 20) ∧
    Series.latest (Series.pushAll (Series.init 3) [pyNum 10, PyValue.vNone, pyNum 20])
      = some 20 := by
  exact ⟨by decide, by decide⟩

/-- C7: get_min_max() signals "no data" exactly when no non-missing
entry is stored, and otherwise returns the true minimum and maximum over
the non-missing entries currently stored. -/
theorem claim_C7_minmax (s : SeriesState) :
    (Series.get_min_max s = none ↔ Series.validEntries s = []) ∧
    (∀ lo hi, Series.get_min_max s = some (lo, hi) →
      lo ∈ Series.validEntries s ∧ hi ∈ Series.validEntries s ∧
      ∀ x ∈ Series.validEntries s, lo ≤ x ∧ x ≤ hi) := by
  rcases hv : Series.validEntries s with _ | ⟨x, xs⟩
  · have hmm : Series.get_min_max s = none := by
      unfold Series.get_min_max
      rw [hv]
    refine ⟨by simp [hmm], ?_⟩
    intro lo hi h
    rw [hmm] at h
    exact absurd h (by simp)
  · have hmm : Series.get_min_max s = some (xs.foldl min x, xs.foldl max x) := by
      unfold Series.get_min_max
      rw [hv]
    constructor
    · rw [hmm]
      constructor
      · intro h
        exact absurd h (by simp)
      · intro h
        exact absurd h (List.cons_ne_nil x xs)
    · intro lo hi h
      rw [hmm] at h
      simp only [Option.some.injEq, Prod.mk.injEq] at h
      obtain ⟨hlo, hhi⟩ := h
      rw [← hlo, ← hhi]
      refine ⟨foldl_min_mem xs x, foldl_max_mem xs x, ?_⟩
      intro z hz
      exact ⟨foldl_min_le xs x z hz, foldl_max_ge xs x z hz⟩

/-- C3: in AutoExpand mode the target range computed by a frame's
auto-scale pass is a superset of the previous frame's target: new target
lo = min(candidate lo, previous target lo), new target hi = max(candidate
hi, previous target hi); a pass with no valid data retains the previous
target; hence the target never shrinks across any sequence of passes. -/
theorem claim_C3_autoexpand_monotone (r : RendererState) (mn mx : ℚ)
    (series : List SeriesState) (frames : List (List SeriesState))
    (hmode : r.mode = AutoScaleMode.autoExpand) :
    ((Renderer.compute_auto_scale r (some (mn, mx))).targetYMin
        = min (Renderer.candidateLo r mn mx) r.targetYMin ∧
     (Renderer.compute_auto_scale r (some (mn, mx))).targetYMax
        = max (Renderer.candidateHi r mn mx) r.targetYMax) ∧
    Renderer.compute_auto_scale r none = r ∧
    ((∀ s ∈ series, Series.get_min_max s = none) →
      (Renderer.render r series).targetYMin = r.targetYMin ∧
      (Renderer.render r series).targetYMax = r.targetYMax) ∧
    ((Renderer.render r series).targetYMin ≤ r.targetYMin ∧
      r.targetYMax ≤ (Renderer.render r series).targetYMax) ∧
    ((frames.foldl Renderer.render r).targetYMin ≤ r.targetYMin ∧
      r.targetYMax ≤ (frames.foldl Renderer.render r).targetYMax) := by
  obtain ⟨ht1, ht2⟩ := Renderer.cas_target r mn mx
  exact ⟨⟨by rw [ht1, if_pos hmode], by rw [ht2, if_pos hmode]⟩,
    Renderer.cas_none r,
    fun h => Renderer.render_no_data_target r series h,
    Renderer.render_expand_target r series hmode,
    Renderer.foldl_render_expand_mono frames r hmode⟩

/-- A concrete AutoExpand renderer state used by witnesses. -/
def rExpand : RendererState :=
  { mode := .autoExpand, pad := 1/10, smooth := true, speed := 3/20, plotH := 390
    cfgYMin := 0, cfgYMax := 100, theme := 0
    targetYMin := 0, targetYMax := 100, displayYMin := 0, displayYMax := 100
    bgDirty := true, bgCache := none, nextVersion := 0 }

/-- Witness for C3: a concrete AutoExpand pass over data (0, 10) and a
two-frame render sequence with no data. -/
theorem claim_C3_witness :
    rExpand.mode = AutoScaleMode.autoExpand ∧
    (Renderer.compute_auto_scale rExpand (some (0, 10))).targetYMin
      = min (Renderer.candidateLo rExpand 0 10) rExpand.targetYMin ∧
    (([[], []] : List (List SeriesState)).foldl Renderer.render rExpand).targetYMin
      ≤ rExpand.targetYMin := by
  have h := claim_C3_autoexpand_monotone rExpand 0 10 [] [[], []] rfl
  exact ⟨rfl, h.1.1, h.2.2.2.2.1⟩

/-- A concrete Auto-mode renderer state used by witnesses and the C5
counterexample. -/
def rAuto : RendererState :=
  { mode := .auto, pad := 1/10, smooth := true, speed := 3/20, plotH := 390
    cfgYMin := 0, cfgYMax := 100, theme := 0
    targetYMin := 0, targetYMax := 100, displayYMin := 0, displayYMax := 100
    bgDirty := true, bgCache := none, nextVersion := 0 }

/-- C5 counterexample: for a constant signal (dataMin = dataMax = 5) with
padding 0.1, the pass substitutes 1.0 for the degenerate range, giving
candidate lo 4.9; the claimed formula range = max(dataMax - dataMin, ε)
with ε = 1e-6 would give 5 - 1e-6 × 0.1 instead, so the claim is false at
this input. -/
theorem claim_C5_counterexample :
    (Renderer.compute_auto_scale rAuto (some (5, 5))).targetYMin = 49/10 ∧
    (49/10 : ℚ) ≠ 5 - (1/1000000) * (1/10) ∧
    Renderer.dataRangeUsed 5 5 = 1 ∧ (1 : ℚ) ≠ max (5 - 5) (1/1000000) := by
  have h1 : Renderer.dataRangeUsed 5 5 = 1 := by
    unfold Renderer.dataRangeUsed
    norm_num
  have h2 : (Renderer.compute_auto_scale rAuto (some (5, 5))).targetYMin = 49/10 := by
    rw [(Renderer.cas_target rAuto 5 5).1]
    rw [if_neg (by decide : ¬ rAuto.mode = AutoScaleMode.autoExpand)]
    show (5 : ℚ) - Renderer.dataRangeUsed 5 5 * (1/10) = 49/10
    rw [h1]
    norm_num
  refine ⟨h2, by norm_num, h1, ?_⟩
  rw [show max ((5 : ℚ) - 5) (1/1000000) = 1/1000000 by
    rw [max_eq_right (by norm_num)]]
  norm_num

/-- C5 (amended): in an auto-scale pass with valid data the range used
for padding is dataMax - dataMin when that is at least 1e-6, and the
substituted range for a (near-)constant signal is 1.0 — not ε; the
candidates are dataMin - range × paddingFraction and dataMax + range ×
paddingFraction, which in Auto mode become the target directly. -/
theorem claim_C5_range_substitution (r : RendererState) (mn mx : ℚ)
    (hmode : r.mode = AutoScaleMode.auto) :
    Renderer.dataRangeUsed mn mx = (if 1/1000000 ≤ mx - mn then mx - mn else 1) ∧
    (Renderer.compute_auto_scale r (some (mn, mx))).targetYMin
      = mn - (if 1/1000000 ≤ mx - mn then mx - mn else 1) * r.pad ∧
    (Renderer.compute_auto_scale r (some (mn, mx))).targetYMax
      = mx + (if 1/1000000 ≤ mx - mn then mx - mn else 1) * r.pad := by
  have hdr : Renderer.dataRangeUsed mn mx
      = (if 1/1000000 ≤ mx - mn then mx - mn else 1) := by
    unfold Renderer.dataRangeUsed
    by_cases h : mx - mn < 1/1000000
    · rw [if_pos h, if_neg (not_le.mpr h)]
    · rw [if_neg h, if_pos (not_lt.mp h)]
  obtain ⟨ht1, ht2⟩ := Renderer.cas_target r mn mx
  have hne : r.mode ≠ AutoScaleMode.autoExpand := by
    rw [hmode]
    intro hcon
    exact AutoScaleMode.noConfusion hcon
  refine ⟨hdr, ?_, ?_⟩
  · rw [ht1, if_neg hne]
    unfold Renderer.candidateLo
    rw [hdr]
  · rw [ht2, if_neg hne]
    unfold Renderer.candidateHi
    rw [hdr]

/-- Witness for C5 (amended): the constant signal 5 under rAuto — the
substituted range is 1.0 and the target becomes (4.9, 5.1). -/
theorem claim_C5_witness :
    rAuto.mode = AutoScaleMode.auto ∧
    (Renderer.compute_auto_scale rAuto (some (5, 5))).targetYMin
      = 5 - (if (1:ℚ)/1000000 ≤ 5 - 5 then 5 - 5 else 1) * rAuto.pad := by
  have h := claim_C5_range_substitution rAuto 5 5 rfl
  exact ⟨rfl, h.2.1⟩

/-- C4: the Adaptive tick with a positive target rate: on overrun
(remaining ≤ 0) the poll is the minimal 1 ms and the overshoot EMA is
untouched; otherwise the poll is max(1 ms, trunc((remaining -
overshootEMA) × 1000)) and the EMA moves by smoothingFactor × (overshoot
- EMA) where overshoot = actualWait - requestedWait; in both branches
the tick clock ends reset to the final clock reading. -/
theorem claim_C4_adaptive_tick (s : TimerState)
    (now nowOverrun tBefore actualWait nowRecord : ℚ) (hfps : 0 < s.targetFps) :
    (FrameTimer.tick s now nowOverrun tBefore actualWait nowRecord).2.lastTick
        = nowRecord ∧
    (s.frameDuration - (now - s.lastTick) ≤ 0 →
      (FrameTimer.tick s now nowOverrun tBefore actualWait nowRecord).1 = 1 ∧
      (FrameTimer.tick s now nowOverrun tBefore actualWait nowRecord).2.overshootAvg
        = s.overshootAvg) ∧
    (0 < s.frameDuration - (now - s.lastTick) →
      (FrameTimer.tick s now nowOverrun tBefore actualWait nowRecord).1
        = max 1 (FrameTimer.truncToInt
            ((s.frameDuration - (now - s.lastTick) - s.overshootAvg) * 1000)) ∧
      (FrameTimer.tick s now nowOverrun tBefore actualWait nowRecord).2.overshootAvg
        = s.overshootAvg + s.overshootAlpha *
            ((actualWait - ((max 1 (FrameTimer.truncToInt
                ((s.frameDuration - (now - s.lastTick) - s.overshootAvg) * 1000)) : ℤ)
              : ℚ) / 1000) - s.overshootAvg)) := by
  have hne : ¬ s.targetFps ≤ 0 := not_le.mpr hfps
  have htick : FrameTimer.tick s now nowOverrun tBefore actualWait nowRecord
      = ((FrameTimer.tick_adaptive s (s.frameDuration - (now - s.lastTick))
            nowOverrun tBefore actualWait).1,
         FrameTimer.record_frame
           (FrameTimer.tick_adaptive s (s.frameDuration - (now - s.lastTick))
             nowOverrun tBefore actualWait).2 nowRecord) := by
    unfold FrameTimer.tick
    rw [if_neg hne]
  refine ⟨?_, ?_, ?_⟩
  · rw [htick]
    exact FrameTimer.record_frame_lastTick _ _
  · intro hrem
    rw [htick, FrameTimer.tick_adaptive_overrun s _ nowOverrun tBefore actualWait hrem]
    exact ⟨rfl, (FrameTimer.record_frame_overshootAvg _ _).trans rfl⟩
  · intro hrem
    rw [htick, FrameTimer.tick_adaptive_wait s _ nowOverrun tBefore actualWait
      (not_le.mpr hrem)]
    refine ⟨rfl, ?_⟩
    rw [FrameTimer.record_frame_overshootAvg]
    dsimp only
    ring

/-- A concrete 60 FPS adaptive timer state used by the C4 witness. -/
def timer0 : TimerState :=
  { targetFps := 60, frameDuration := 1/60, lastTick := 0, frameTimes := []
    fps := 0, overshootAvg := 0, overshootAlpha := 1/10 }

/-- Witness for C4: half the frame budget is left, so the poll requests
max(1, trunc((1/120)·1000)) = 8 ms. -/
theorem claim_C4_witness :
    (0 : ℤ) < timer0.targetFps ∧
    (0 : ℚ) < timer0.frameDuration - ((1/120 : ℚ) - timer0.lastTick) ∧
    (FrameTimer.tick timer0 (1/120) 0 (1/120) (1/100) (1/50)).1 = 8 := by
  have hrem : (0 : ℚ) < timer0.frameDuration - ((1/120 : ℚ) - timer0.lastTick) := by
    show (0 : ℚ) < 1/60 - (1/120 - 0)
    norm_num
  have h := claim_C4_adaptive_tick timer0 (1/120) 0 (1/120) (1/100) (1/50) (by decide)
  refine ⟨by decide, hrem, ?_⟩
  rw [(h.2.2 hrem).1]
  have hq : (timer0.frameDuration - ((1/120 : ℚ) - timer0.lastTick) - timer0.overshootAvg)
      * 1000 = 25/3 := by
    show ((1/60 : ℚ) - (1/120 - 0) - 0) * 1000 = 25/3
    norm_num
  rw [hq]
  unfold FrameTimer.truncToInt
  rw [if_pos (by norm_num : (0 : ℚ) ≤ 25/3)]
  rw [show ⌊(25/3 : ℚ)⌋ = 8 by
    rw [Int.floor_eq_iff]
    norm_num]
  decide

/-- Witness for C7: the scenario-2 buffer — min 10, max 20, both bounds
members of the valid entries [10, 20]. -/
theorem claim_C7_witness :
    Series.get_min_max (Series.pushAll (Series.init 3) [pyNum 10, PyValue.vNone, pyNum 20])
      = some (10, 20) ∧
    ((10 : ℚ) ∈ Series.validEntries
        (Series.pushAll (Series.init 3) [pyNum 10, PyValue.vNone, pyNum 20]) ∧
     (20 : ℚ) ∈ Series.validEntries
        (Series.pushAll (Series.init 3) [pyNum 10, PyValue.vNone, pyNum 20])) := by
  have h := (claim_C7_minmax
    (Series.pushAll (Series.init 3) [pyNum 10, PyValue.vNone, pyNum 20])).2 10 20 (by decide)
  exact ⟨by decide, h.1, h.2.1⟩

/-- A concrete fixed-mode renderer used by the orchestrator fixtures. -/
def rFixed : RendererState :=
  { mode := .fixed, pad := 1, smooth := true, speed := 1, plotH := 390
    cfgYMin := 0, cfgYMax := 100, theme := 0
    targetYMin := 0, targetYMax := 100, displayYMin := 0, displayYMax := 100
    bgDirty := true, bgCache := none, nextVersion := 0 }

/-- A concrete clean renderer (cache present, flag clear, bounds settled)
used by the C9 witness. -/
def rClean : RendererState :=
  { mode := .fixed, pad := 1, smooth := true, speed := 1, plotH := 390
    cfgYMin := 0, cfgYMax := 100, theme := 0
    targetYMin := 0, targetYMax := 100, displayYMin := 0, displayYMax := 100
    bgDirty := false, bgCache := some 0, nextVersion := 1 }

/-- A concrete plot with one registered series "a". -/
def p0 : PlotState :=
  { series := [("a", Series.init 3)], seriesOrder := ["a"], paused := false
    bufferSize := 3, renderer := rFixed }

/-- A concrete paused plot with no registered series, for the C8
counterexample. -/
def pPaused : PlotState :=
  { series := [], seriesOrder := [], paused := true, bufferSize := 3, renderer := rFixed }

/-- A concrete unpaused plot with no registered series, for the C8
witness. -/
def pLive : PlotState :=
  { series := [], seriesOrder := [], paused := false, bufferSize := 3, renderer := rFixed }

/-- Whether an Except result is a success. -/
def isOkB {ε α : Type} : Except ε α → Bool
  | .ok _ => true
  | .error _ => false

/-- C8 counterexample: with the plot paused, update_all skips the
unknown-series check together with the pushes — pushing to the
unregistered name "x" returns normally instead of raising the
unknown-series error, so "every named push operation fails fast" is
false as stated. -/
theorem claim_C8_counterexample :
    pPaused.series.lookup "x" = none ∧ pPaused.paused = true ∧
    isOkB (LivePlot.update_all pPaused [("x", pyNum 1)]) = true := by
  exact ⟨rfl, rfl, rfl⟩

/-- C8 (amended): update(name, value) on an unregistered name raises the
unknown-series KeyError — even while paused — without creating the
series or pushing the value; update_all({name: value}) raises it when
the plot is not paused (while paused it skips the check together with
the push); and the single-argument path update(value) auto-creates the
reserved "_default" series on first use. -/
theorem claim_C8_unknown_series (p : PlotState) (name : String) (v : PyValue)
    (hunk : p.series.lookup name = none) :
    LivePlot.updateNamed p name v = .error (.unknownSeries name, p) ∧
    (p.paused = false →
      LivePlot.update_all p [(name, v)] = .error (.unknownSeries name, p)) ∧
    ((LivePlot.updateSingle p v).series.lookup "_default").isSome := by
  have hN : (p.series.lookup name).isNone := by rw [hunk]; rfl
  refine ⟨?_, ?_, ?_⟩
  · unfold LivePlot.updateNamed
    rw [if_pos hN]
  · intro hp
    unfold LivePlot.update_all
    rw [if_neg (by rw [hp]; exact Bool.false_ne_true)]
    have hpan : LivePlot.pushAllNamed p [(name, v)] = .error (.unknownSeries name, p) := by
      unfold LivePlot.pushAllNamed
      rw [if_pos hN]
    rw [hpan]
  · have h1 : ((LivePlot.ensure_default_series p).series.lookup "_default").isSome := by
      unfold LivePlot.ensure_default_series
      split_ifs with h
      · exact h
      · exact lookup_append_self p.series "_default" (Series.init p.bufferSize)
    unfold LivePlot.updateSingle LivePlot.do_render
    dsimp only
    by_cases hp : (LivePlot.ensure_default_series p).paused = true
    · rw [if_pos hp]
      exact h1
    · rw [if_neg hp]
      unfold LivePlot.pushInto
      dsimp only
      rw [lookup_map_keepKeys
        (fun kv => if kv.1 = "_default" then (kv.1, Series.push kv.2 v) else kv)
        (fun kv => by
          show (if kv.1 = "_default" then (kv.1, Series.push kv.2 v) else kv).1 = kv.1
          split_ifs <;> rfl)]
      exact h1

/-- Witness for C8 (amended): the empty unpaused plot — both named push
paths raise for the unregistered name "x", and the single-value path
creates "_default". -/
theorem claim_C8_witness :
    pLive.series.lookup "x" = none ∧ pLive.paused = false ∧
    LivePlot.updateNamed pLive "x" (pyNum 1) = .error (.unknownSeries "x", pLive) ∧
    LivePlot.update_all pLive [("x", pyNum 1)] = .error (.unknownSeries "x", pLive) ∧
    ((LivePlot.updateSingle pLive (pyNum 1)).series.lookup "_default").isSome := by
  have h := claim_C8_unknown_series pLive "x" (pyNum 1) rfl
  exact ⟨rfl, rfl, h.1, h.2.1 rfl, h.2.2⟩

/-- C9: adding or removing a series, changing the theme, or calling
set_y_limits always sets the dirty flag; a set flag makes the next
render allocate a fresh background buffer; every render ends with the
flag clear and a cached background present; and a render whose
displayed-bound movement stays within the smoothing visibility
threshold returns the identical cached background buffer (same identity
token). -/
theorem claim_C9_cache (p : PlotState) (name : String) (t : ℕ) (yMin yMax : ℚ)
    (r r1 : RendererState) (d1 d2 : List SeriesState)
    (hpresent : (p.series.lookup name).isSome)
    (hsm1 : r1.smooth = true) (hd1 : r1.bgDirty = false) (hc1 : r1.bgCache.isSome)
    (h1 : |Renderer.lerpMin (Renderer.renderScalePass r1 d2)
            - (Renderer.renderScalePass r1 d2).displayYMin|
          ≤ Renderer.lerpThreshold (Renderer.renderScalePass r1 d2))
    (h2 : |Renderer.lerpMax (Renderer.renderScalePass r1 d2)
            - (Renderer.renderScalePass r1 d2).displayYMax|
          ≤ Renderer.lerpThreshold (Renderer.renderScalePass r1 d2)) :
    (LivePlot.add_series p name).renderer.bgDirty = true ∧
    (LivePlot.remove_series p name).renderer.bgDirty = true ∧
    (LivePlot.set_theme p t).renderer.bgDirty = true ∧
    (LivePlot.set_y_limits p yMin yMax).renderer.bgDirty = true ∧
    (r.bgDirty = true →
      (Renderer.render r d1).bgCache = some r.nextVersion ∧
      (Renderer.render r d1).nextVersion = r.nextVersion + 1) ∧
    ((Renderer.render r d1).bgDirty = false ∧ (Renderer.render r d1).bgCache.isSome) ∧
    (Renderer.render r1 d2).bgCache = r1.bgCache := by
  refine ⟨rfl, ?_, rfl, rfl, fun h => Renderer.render_rebuild r d1 h,
    ⟨Renderer.render_dirty_false r d1, Renderer.render_cache_isSome r d1⟩, ?_⟩
  · unfold LivePlot.remove_series
    rw [if_pos hpresent]
    rfl
  · exact Renderer.render_reuse r1 d2 hsm1 hd1 hc1 h1 h2

/-- Witness for C9: the one-series plot p0 and the settled clean
renderer rClean rendering an empty series list — mutations set the flag
and the clean render hands back the identical cached buffer (token 0). -/
theorem claim_C9_witness :
    (p0.series.lookup "a").isSome ∧ rClean.smooth = true ∧
    (LivePlot.add_series p0 "a").renderer.bgDirty = true ∧
    (LivePlot.remove_series p0 "a").renderer.bgDirty = true ∧
    (Renderer.render rClean []).bgCache = some 0 := by
  have hsp : Renderer.renderScalePass rClean [] = rClean := rfl
  have h1 : |Renderer.lerpMin (Renderer.renderScalePass rClean [])
      - (Renderer.renderScalePass rClean []).displayYMin|
      ≤ Renderer.lerpThreshold (Renderer.renderScalePass rClean []) := by
    rw [hsp]
    show |(0 : ℚ) + (0 - 0) * 1 - 0|
      ≤ ((100 : ℚ) + (100 - 100) * 1 - (0 + (0 - 0) * 1)) / ((max 390 1 : ℕ) : ℚ) * (1/10)
    norm_num
  have h2 : |Renderer.lerpMax (Renderer.renderScalePass rClean [])
      - (Renderer.renderScalePass rClean []).displayYMax|
      ≤ Renderer.lerpThreshold (Renderer.renderScalePass rClean []) := by
    rw [hsp]
    show |(100 : ℚ) + (100 - 100) * 1 - 100|
      ≤ ((100 : ℚ) + (100 - 100) * 1 - (0 + (0 - 0) * 1)) / ((max 390 1 : ℕ) : ℚ) * (1/10)
    norm_num
  have h := claim_C9_cache p0 "a" 1 0 1 rFixed rClean [] [] (by decide) rfl rfl rfl h1 h2
  exact ⟨by decide, rfl, h.1, h.2.1, h.2.2.2.2.2.2⟩

/-- C10 counterexample: push is not total over arbitrary host values.
float(10^400) raises OverflowError, which the except (ValueError,
TypeError) clause does not catch, so Series.push(10**400) raises: the
full model propagates the error instead of sanitizing, advancing the
cursor and incrementing the count as the claim asserts. -/
theorem claim_C10_counterexample :
    Series.pushX (Series.init 2) (PyValueX.vInt (10 ^ 400))
      = .error PyExc.overflowError ∧
    PyExc.overflowError.isCaught = false ∧
    tryFloatX (PyValueX.vInt (10 ^ 400)) = .error PyExc.overflowError := by
  have hov : overflowBound ≤ |(10 ^ 400 : ℤ)| := by
    rw [abs_of_nonneg (by positivity)]
    unfold overflowBound
    norm_num
  have ht : tryFloatX (PyValueX.vInt (10 ^ 400)) = .error PyExc.overflowError := by
    unfold tryFloatX; dsimp only; rw [if_pos hov]
  have hs : sanitizeX (PyValueX.vInt (10 ^ 400)) = .error PyExc.overflowError := by
    unfold sanitizeX
    dsimp only
    rw [ht]
    rfl
  refine ⟨?_, rfl, ht⟩
  unfold Series.pushX
  rw [hs]

/-- C10 (amended): Series.push completes normally exactly on the inputs
whose float(value) conversion succeeds or raises one of the two caught
classes ValueError/TypeError — a caught failure is sanitized to the
missing sentinel, and every completed push writes at the cursor,
advances it modulo the capacity and increments the count saturating at
the capacity; an exception class the except clause does not catch (such
as OverflowError from an integer beyond double range, or any other
class from an object's conversion) propagates out of push with the
buffer state untouched. -/
theorem claim_C10_push_exceptions (s : SeriesState) (v : PyValueX) :
    (∀ clean, sanitizeX v = Except.ok clean →
      Series.pushX s v = Except.ok
        { s with
          buffer := s.buffer.set s.head clean
          head := (s.head + 1) % s.size
          count := min (s.count + 1) s.size
          runningSum := (Series.statsAfterPush s clean).1
          runningSqSum := (Series.statsAfterPush s clean).2 }) ∧
    (∀ f, tryFloatX v = .ok f → ∃ clean, sanitizeX v = .ok clean) ∧
    (∀ e, tryFloatX v = .error e → e.isCaught = true → sanitizeX v = .ok none) ∧
    (∀ e, tryFloatX v = .error e → e.isCaught = false →
      Series.pushX s v = .error e) ∧
    (∀ e, Series.pushX s v = .error e →
      tryFloatX v = .error e ∧ e.isCaught = false) := by
  refine ⟨?_, ?_, ?_, ?_, ?_⟩
  · intro clean h
    unfold Series.pushX
    rw [h]
  · intro f hf
    exact sanitizeX_ok_of_conv_ok v f hf
  · intro e he hc
    exact sanitizeX_caught v e he hc
  · intro e he hc
    unfold Series.pushX
    rw [sanitizeX_uncaught v e he hc]
  · intro e he
    exact sanitizeX_error_inv v e (pushX_error_inv s v e he)

/-- Witness for C10 (amended): an object whose conversion raises
ValueError — a caught class — is sanitized to the sentinel and its push
into a fresh capacity-2 buffer succeeds with count 1 and cursor 1. -/
theorem claim_C10_witness :
    tryFloatX (PyValueX.vObj (.error .valueError)) = .error PyExc.valueError ∧
    PyExc.valueError.isCaught = true ∧
    sanitizeX (PyValueX.vObj (.error .valueError)) = .ok none ∧
    Series.pushX (Series.init 2) (PyValueX.vObj (.error .valueError))
      = .ok { size := 2, buffer := [none, none], head := 1, count := 1,
              runningSum := 0, runningSqSum := 0 } := by
  have h := claim_C10_push_exceptions (Series.init 2) (PyValueX.vObj (.error .valueError))
  have hs : sanitizeX (PyValueX.vObj (.error .valueError)) = .ok none :=
    h.2.2.1 .valueError rfl rfl
  refine ⟨rfl, rfl, hs, ?_⟩
  rw [h.1 none hs]
  rfl

end RTMon
